import Mathlib

/-!
Verification of the batch merge pipeline of the epw-analysis repository
(`src/computation.py` and `src/merge_files_into_parquet.py`).

The Python source is shallowly embedded:
* strings are `List Char` / `String` (ASCII inputs; Python `str.casefold` /
  `str.lower` / `str.upper` agree with `Char.toLower` / `Char.toUpper` on ASCII);
* Python floats are modelled as `ℚ` — every operation the code performs on them
  (`min`, `max`, order comparisons) is exact on floats and agrees with the
  rational order, so no rounding is involved;
* Python `int(...)` on strings is modelled by `pyIntOfChars` following CPython:
  surrounding whitespace is stripped, an optional sign is allowed, and digits
  may be grouped by single underscores;
* external collaborators (the `ladybug` EPW decoder, the `pythermalcomfort`
  model library, the `polars` table engine) are opaque: each per-file call
  outcome is an input of the model, and for the comfort-model adapter the
  observable is the argument record passed to the external `utci` function;
* fallible code returns `Except`.
-/

/-! ### Python character and string primitives -/

/-- Whitespace accepted by CPython `int(str)` stripping (ASCII fragment). -/
def pyIsSpace (c : Char) : Bool :=
  c = ' ' || c = '\t' || c = '\n' || c = '\r' || c = '\x0b' || c = '\x0c'

/-- Numeric value of a decimal digit character. -/
def digitVal (c : Char) : Nat := c.toNat - 48

/-- Model of `str.strip()` as used by CPython before parsing an integer literal. -/
def pyStrip (l : List Char) : List Char :=
  ((l.dropWhile pyIsSpace).reverse.dropWhile pyIsSpace).reverse

/-- Continuation of CPython decimal-digit parsing: digits already accumulated in
`acc`, remaining characters may be digits optionally separated by single
underscores (an underscore must sit between two digits). -/
def parseDigitsTail (acc : Nat) : List Char → Option Nat
  | [] => some acc
  | c :: rest =>
    if c.isDigit then parseDigitsTail (acc * 10 + digitVal c) rest
    else if c = '_' then
      match rest with
      | [] => none
      | d :: rest2 =>
        if d.isDigit then parseDigitsTail (acc * 10 + digitVal d) rest2 else none
    else none

/-- A CPython digit part: nonempty, starts with a digit. -/
def parseDigitPart : List Char → Option Nat
  | [] => none
  | c :: rest => if c.isDigit then parseDigitsTail (digitVal c) rest else none

/-- CPython `int(s)` for base 10: strip whitespace, optional sign, digit part
with optional single underscore separators.  `none` models `ValueError`. -/
def pyIntOfChars (l : List Char) : Option Int :=
  match pyStrip l with
  | [] => none
  | c :: rest =>
    if c = '+' then (parseDigitPart rest).map Int.ofNat
    else if c = '-' then (parseDigitPart rest).map (fun n => -(n : Int))
    else (parseDigitPart (c :: rest)).map Int.ofNat

/-- Python `s[-4:]`: the last four characters (the whole string if shorter). -/
def last4 (l : List Char) : List Char := l.drop (l.length - 4)

/-- Python `s.split(sep)` for a single-character separator: splits at every
occurrence, keeping empty pieces; the empty string yields `[[]]`. -/
def pySplit (sep : Char) (l : List Char) : List (List Char) :=
  go l []
where
  go : List Char → List Char → List (List Char)
    | [], cur => [cur.reverse]
    | c :: rest, cur =>
      if c = sep then cur.reverse :: go rest [] else go rest (c :: cur)

/-- Python `lst[-2]`: the second element from the end, if it exists. -/
def penult {α : Type} (l : List α) : Option α := l.dropLast.getLast?

/-- Substring containment test (`pat in s` for Python strings). -/
def containsSub (pat : List Char) (l : List Char) : Bool :=
  l.tails.any (fun t => pat.isPrefixOf t)

/-- Test `"ssp".casefold() in stem.casefold()` from `parse_filename`
(`src/merge_files_into_parquet.py:99`); casefold modelled as ASCII lowering. -/
def sspIn (l : List Char) : Bool := containsSub ['s', 's', 'p'] (l.map Char.toLower)

/-! ### `pathlib` name handling

`Path.suffix` / `Path.stem` of a file name: CPython takes the position `i` of
the last dot and uses it only when `0 < i < len - 1`. -/

/-- Index (from the end) of the last `'.'` in the name, if any. -/
def revDotIdx (l : List Char) : Option Nat := l.reverse.findIdx? (fun c => c = '.')

/-- Model of `Path(name).suffix` for a bare file name. -/
def pathSuffixChars (l : List Char) : List Char :=
  match revDotIdx l with
  | none => []
  | some j =>
    let i := l.length - 1 - j
    if 0 < i ∧ i < l.length - 1 then l.drop i else []

/-- Model of `Path(name).stem` for a bare file name. -/
def pathStemChars (l : List Char) : List Char :=
  match revDotIdx l with
  | none => l
  | some j =>
    let i := l.length - 1 - j
    if 0 < i ∧ i < l.length - 1 then l.take i else l

/-! ### `parse_filename` (`src/merge_files_into_parquet.py:78-105`) -/

/-- Python exceptions that `parse_filename` can raise: `ValueError` from
`int(...)`, `IndexError` from `split("_")[-2]`. -/
inductive PyErr
  | valueError
  | indexError
deriving DecidableEq, Repr

/-- The scenario / year record returned by `parse_filename`. -/
structure ScenarioYear where
  scenario : String
  year : Int
deriving DecidableEq, Repr

/-- Body of `parse_filename` applied to the extension-stripped name.  The year
is computed first (`int(file_path.stem[-4:])`, line 98), then the scenario
(lines 99-100), mirroring the statement order in the source. -/
def parseStemChars (stem : List Char) : Except PyErr ScenarioYear :=
  match pyIntOfChars (last4 stem) with
  | none => .error .valueError
  | some year =>
    if sspIn stem then
      match penult (pySplit '_' stem) with
      | none => .error .indexError
      | some tok => .ok ⟨String.mk (tok.map Char.toUpper), year⟩
    else .ok ⟨"Baseline", year⟩

/-- Function `parse_filename` on a file name (the source receives a `Path` and reads
`file_path.stem`). -/
def parse_filename (name : String) : Except PyErr ScenarioYear :=
  parseStemChars (pathStemChars name.data)

/-! ### `saturate` and the comfort-model adapter (`src/computation.py`) -/

/-- Function `saturate` (`src/computation.py:7-19`): `min(max(value, lower_bound), upper_bound)`. -/
def saturate (value lower_bound upper_bound : ℚ) : ℚ :=
  min (max value lower_bound) upper_bound

/-- Constant `UTCI_WIND_LOWER_BOUND = 0.50001` (`src/computation.py:3`). -/
def UTCI_WIND_LOWER_BOUND : ℚ := 50001 / 100000

/-- Constant `UTCI_WIND_UPPER_BOUND = 16.99999` (`src/computation.py:4`). -/
def UTCI_WIND_UPPER_BOUND : ℚ := 1699999 / 100000

/-- The argument record `compute_comfort_models` passes to the external
`pythermalcomfort` `utci` function (`src/computation.py:71-77`). -/
structure UtciCall where
  tdb : List ℚ
  tr : List ℚ
  v : List ℚ
  rh : List Int
  return_stress_category : Bool
  limit_inputs : Bool
deriving DecidableEq, Repr

/-- The wind-speed preprocessing and `utci` invocation of
`compute_comfort_models` (`src/computation.py:64-77`).  The external library
calls are opaque, so the model captures exactly the arguments handed to
`utci`: wind speed is replaced by its saturated image when
`limit_utci_inputs` is true (line 68-70), dry-bulb temperature is reused as
mean radiant temperature, and the `limit_inputs` flag is forwarded verbatim
(line 77). -/
def compute_comfort_models_utci_call (dry_bulb_temperature : List ℚ)
    (relative_humidity : List Int) (wind_speed : List ℚ)
    (limit_utci_inputs : Bool) : UtciCall :=
  let ws := if limit_utci_inputs then
      wind_speed.map (fun v => saturate v UTCI_WIND_LOWER_BOUND UTCI_WIND_UPPER_BOUND)
    else wind_speed
  { tdb := dry_bulb_temperature
    tr := dry_bulb_temperature
    v := ws
    rh := relative_humidity
    return_stress_category := true
    limit_inputs := limit_utci_inputs }

/-! ### `list_epw_files` (`src/merge_files_into_parquet.py:54-75`)

A directory is modelled as the list of names of its immediate children
(`Path.iterdir`). -/

/-- The error raised when a directory holds no EPW files. -/
inductive DiscoveryError
  | emptyInput
deriving DecidableEq, Repr

/-- ASCII lowering used to model `str.casefold` (they agree on ASCII). -/
def toLowerStr (s : String) : String := String.mk (s.data.map Char.toLower)

/-- The filter `file.suffix.casefold() == ".epw".casefold()` (line 68). -/
def isEpwFile (name : String) : Bool :=
  toLowerStr (String.mk (pathSuffixChars name.data)) = ".epw"

/-- Function `list_epw_files`: keep matching children; raise when none match. -/
def list_epw_files (directory : List String) : Except DiscoveryError (List String) :=
  let epw_file_collection := directory.filter isEpwFile
  if epw_file_collection.isEmpty then .error .emptyInput else .ok epw_file_collection

/-! ### Output schema (`src/merge_files_into_parquet.py:122-150`) -/

/-- The `polars` column types appearing in the output schema. -/
inductive DType
  | string
  | float64
  | int32
  | int64
  | datetime
deriving DecidableEq, Repr

/-- The 19 columns of the dictionary literal at lines 122-141. -/
def strict_schema : List (String × DType) :=
  [("City", .string), ("State", .string), ("Latitude", .float64),
   ("Longitude", .float64), ("Elevation", .float64), ("Scenario/Code", .string),
   ("Scenario/Year", .int32), ("Datetime", .datetime),
   ("Dry Bulb Temperature", .float64), ("Dew Point Temperature", .float64),
   ("Relative Humidity", .int64), ("Atmospheric Station Pressure", .int64),
   ("Horizontal Infrared Radiation Intensity", .int64),
   ("Direct Normal Radiation", .int64), ("Diffuse Horizontal Radiation", .int64),
   ("Wind Direction", .int64), ("Wind Speed", .float64),
   ("Total Sky Cover", .int64), ("Opaque Sky Cover", .int64)]

/-- The 5 columns appended by `output_schema.update` at lines 143-149
(Python dict update appends fresh keys in order). -/
def enrichment_schema : List (String × DType) :=
  [("Discomfort Index", .float64), ("Discomfort Condition", .string),
   ("Heat Index", .float64), ("Universal Thermal Climate Index (UTCI)", .float64),
   ("UTCI Stress Category", .string)]

/-- The schema handed to `pl.DataFrame(schema=...)` at line 150, as a function
of the `--strict` flag. -/
def output_schema (strict : Bool) : List (String × DType) :=
  if strict then strict_schema else strict_schema ++ enrichment_schema

/-! ### The merge orchestrator (`main`, `src/merge_files_into_parquet.py:108-252`)

The model covers `main` from after `list_epw_files` returns.  Each discovered
file is described by its name together with the outcomes of the three opaque
external calls made for it: the `ladybug` EPW decode (`EPW(file)`, line 163),
the comfort-model computation (line 197, only reached in non-strict mode) and
the `polars` batch construction (`pl.DataFrame(unstructured_data)`, line 213).
On success the batch built from a file has one row per time-series entry, so a
batch is recorded as the file name plus its series length.  Durations are
wall-clock times, so only their count is tracked. -/

/-- Command-line configuration relevant to `main`'s loop. -/
structure RunConfig where
  strict : Bool
  export_csv : Bool
  limit_utci_inputs : Bool
deriving DecidableEq, Repr

/-- One discovered input file, with the outcomes of the opaque external calls
made while processing it. -/
structure FileInput where
  name : String
  decodeOk : Bool
  seriesLen : Nat
  comfortOk : Bool
  buildOk : Bool
deriving DecidableEq, Repr

/-- A successfully built per-file batch: the file it came from and its row
count (equal to the file's series length, since every column of
`unstructured_data` is that series or a broadcast scalar). -/
structure Batch where
  fileName : String
  rows : Nat
deriving DecidableEq, Repr

/-- The batch `pl.DataFrame(unstructured_data)` builds for a file. -/
def mkBatch (f : FileInput) : Batch := ⟨f.name, f.seriesLen⟩

/-- Uncaught exceptions that abort `main`: decoder failure (line 163),
`parse_filename` failure (line 164), comfort-model failure (line 197), the
`NameError` from `current_data.write_csv` when `current_data` is unbound
(line 230), and the `ValueError` of `max([])` in the summary (line 241,
unreachable). -/
inductive AbortError
  | decodeError
  | filenameError (e : PyErr)
  | comfortError
  | csvNameError
  | statsError
deriving DecidableEq, Repr

/-- State threaded through `main`'s loop: the accumulating output table, the
`process_metrics` dictionary (duration list length, exception counter, CSV
flag), the log of per-file failures, the written sample CSV, and the Python
local `current_data`, which keeps its last successfully assigned value. -/
structure LoopState where
  schema : List (String × DType)
  table : List Batch
  durationCount : Nat
  failureCount : Nat
  failureLog : List String
  exportedCsv : Bool
  csvFile : Option Batch
  lastBuilt : Option Batch
deriving DecidableEq, Repr

/-- The `else` branch of the `try` (lines 219-227): append the batch, record a
duration; `current_data` now holds this batch. -/
def recordSuccess (st : LoopState) (b : Batch) : LoopState :=
  { st with table := st.table ++ [b], durationCount := st.durationCount + 1,
            lastBuilt := some b }

/-- The `except` branch (lines 214-218): log the failure with the file's
identity and count it; no duration, no rows. -/
def recordFailure (st : LoopState) (fileName : String) : LoopState :=
  { st with failureCount := st.failureCount + 1,
            failureLog := st.failureLog ++ [fileName] }

/-- The `try`/`except`/`else` around `pl.DataFrame` (lines 212-227). -/
def buildStep (st : LoopState) (f : FileInput) : LoopState :=
  if f.buildOk then recordSuccess st (mkBatch f) else recordFailure st f.name

/-- The sample-CSV block (lines 229-232): runs whenever export was requested
and no CSV was written yet; it writes the current value of `current_data`,
which raises `NameError` if that local was never assigned. -/
def csvStep (cfg : RunConfig) (st : LoopState) : Except AbortError LoopState :=
  if cfg.export_csv && !st.exportedCsv then
    match st.lastBuilt with
    | none => .error .csvNameError
    | some b => .ok { st with exportedCsv := true, csvFile := some b }
  else .ok st

/-- One iteration of the `for` loop (lines 159-232): decode, parse the file
name, compute comfort models when not strict (all three uncaught on failure),
then the guarded batch construction and the CSV block. -/
def processFile (cfg : RunConfig) (st : LoopState) (f : FileInput) :
    Except AbortError LoopState :=
  if f.decodeOk then
    match parse_filename f.name with
    | .error e => .error (.filenameError e)
    | .ok _ =>
      if !cfg.strict && !f.comfortOk then .error .comfortError
      else csvStep cfg (buildStep st f)
  else .error .decodeError

/-- The whole `for` loop: sequential, an uncaught exception aborts it. -/
def runLoop (cfg : RunConfig) : LoopState → List FileInput → Except AbortError LoopState
  | st, [] => .ok st
  | st, f :: rest =>
    match processFile cfg st f with
    | .error e => .error e
    | .ok st2 => runLoop cfg st2 rest

/-- State before the loop: empty table with the schema fixed at construction
(line 150), zeroed `process_metrics` (lines 152-156). -/
def initState (cfg : RunConfig) : LoopState :=
  ⟨output_schema cfg.strict, [], 0, 0, [], false, none, none⟩

/-- Row count of the accumulated table (`output_df.is_empty()` tests it). -/
def totalRows (table : List Batch) : Nat := (table.map Batch.rows).sum

/-- What `main` hands back after the loop: the (unchanged) schema, the
appended batches, the persisted parquet artifact if any, the sample CSV if
any, and `process_metrics`. -/
structure RunOutcome where
  schema : List (String × DType)
  tableBatches : List Batch
  artifact : Option (List Batch)
  csvFile : Option Batch
  durations : Nat
  failures : Nat
  failureLog : List String
  warnedEmpty : Bool
deriving DecidableEq, Repr

/-- Lines 234-252: if no rows were gathered, warn and return without an
artifact (a normal return); otherwise compute the duration statistics
(`max([])` would raise — unreachable) and persist the table. -/
def finishRun (st : LoopState) : Except AbortError RunOutcome :=
  if totalRows st.table = 0 then
    .ok ⟨st.schema, st.table, none, st.csvFile, st.durationCount, st.failureCount,
         st.failureLog, true⟩
  else if st.durationCount = 0 then .error .statsError
  else
    .ok ⟨st.schema, st.table, some st.table, st.csvFile, st.durationCount,
         st.failureCount, st.failureLog, false⟩

/-- Code-point lexicographic order on character lists: how Python compares the
final path components of `Path` objects in one directory. -/
def lexLe : List Char → List Char → Bool
  | [], _ => true
  | _ :: _, [] => false
  | a :: as, b :: bs =>
    if a.toNat < b.toNat then true
    else if b.toNat < a.toNat then false
    else lexLe as bs

/-- Model of `Path` comparison for files of one directory. -/
def strLe (s t : String) : Bool := lexLe s.data t.data

/-- Insertion into a sorted list, stable like Python `sorted`. -/
def insertSorted (f : FileInput) : List FileInput → List FileInput
  | [] => [f]
  | g :: rest =>
    if strLe f.name g.name then f :: g :: rest else g :: insertSorted f rest

/-- Model of `sorted(epw_file_collection)` (line 159). -/
def sortFiles : List FileInput → List FileInput
  | [] => []
  | f :: rest => insertSorted f (sortFiles rest)

/-- Function `main` from after discovery: iterate the sorted files, then summarize and
emit. -/
def runMain (cfg : RunConfig) (files : List FileInput) : Except AbortError RunOutcome :=
  match runLoop cfg (initState cfg) (sortFiles files) with
  | .error e => .error e
  | .ok st => finishRun st

/-- Batches of the files whose batch construction succeeds, in list order. -/
def succBatches (files : List FileInput) : List Batch :=
  (files.filter fun f => f.buildOk).map mkBatch

/-- Number of files whose batch construction fails. -/
def failCount (files : List FileInput) : Nat :=
  (files.filter fun f => !f.buildOk).length

/-- Names of the files whose batch construction fails, in list order. -/
def failNames (files : List FileInput) : List String :=
  (files.filter fun f => !f.buildOk).map FileInput.name

/-- Predicate `Except.isOk` spelled out, for decidable hypotheses. -/
def exceptIsOk {ε α : Type} : Except ε α → Bool
  | .ok _ => true
  | .error _ => false

/-! ## Claim theorems -/

/-- C6: for all bounds `lo ≤ hi` and every value `v`, `saturate(v, lo, hi)`
returns `lo` if `v < lo`, `hi` if `v > hi`, and `v` unchanged otherwise; the
result always lies in `[lo, hi]` and equals `v` whenever `v ∈ [lo, hi]`.  The
function is total by construction, with no error conditions. -/
theorem saturate_spec (lo hi : ℚ) (h : lo ≤ hi) (v : ℚ) :
    (v < lo → saturate v lo hi = lo) ∧
    (hi < v → saturate v lo hi = hi) ∧
    (lo ≤ v → v ≤ hi → saturate v lo hi = v) ∧
    lo ≤ saturate v lo hi ∧ saturate v lo hi ≤ hi := by
  unfold saturate
  refine ⟨?_, ?_, ?_, ?_, min_le_right _ _⟩
  · intro hv
    rw [max_eq_right (le_of_lt hv), min_eq_left h]
  · intro hv
    rw [max_eq_left (le_of_lt (lt_of_le_of_lt h hv)), min_eq_right (le_of_lt hv)]
  · intro h1 h2
    rw [max_eq_left h1, min_eq_left h2]
  · exact le_min (le_max_right _ _) h

/-- Witness for C6 at `lo = 0`, `hi = 10`, `v ∈ {-5, 15, 7}`. -/
theorem saturate_spec_witness :
    saturate (-5) 0 10 = 0 ∧ saturate 15 0 10 = 10 ∧ saturate 7 0 10 = 7 := by
  have h := saturate_spec 0 10 (by norm_num)
  exact ⟨(h (-5)).1 (by norm_num), (h 15).2.1 (by norm_num),
         (h 7).2.2.1 (by norm_num) (by norm_num)⟩

/-- C1 (code-bug evaluation): the claim — matching the function's own
docstring and the CLI help — pairs wind-speed saturation with telling the
`utci` model *not* to limit inputs, and the no-saturation mode with internal
limiting.  The code instead couples them: the flag that triggers saturation
(`limit_utci_inputs = true`) is also forwarded as `limit_inputs = true`, and
with the flag false an out-of-range wind speed (20) reaches the model
unsaturated while the model is told not to limit either. -/
theorem utci_clamping_coupled_to_limit_flag :
    (compute_comfort_models_utci_call [30] [50] [20] false).v = [20] ∧
    (compute_comfort_models_utci_call [30] [50] [20] false).limit_inputs = false ∧
    (compute_comfort_models_utci_call [30] [50] [20] true).v = [UTCI_WIND_UPPER_BOUND] ∧
    (compute_comfort_models_utci_call [30] [50] [20] true).limit_inputs = true ∧
    UTCI_WIND_UPPER_BOUND < 20 := by
  refine ⟨rfl, rfl, ?_, rfl, by norm_num [UTCI_WIND_UPPER_BOUND]⟩
  show [saturate 20 UTCI_WIND_LOWER_BOUND UTCI_WIND_UPPER_BOUND] = _
  norm_num [saturate, UTCI_WIND_LOWER_BOUND, UTCI_WIND_UPPER_BOUND,
    max_eq_left, min_eq_right]

/-- C9 (code-bug evaluation): in the mode the docstring and CLI document as
the saturation mode (`limit_utci_inputs = false`), wind speeds 20 and 0.1 are
passed to the heat-stress model unchanged, not as 16.99999 and 0.50001; the
saturation producing exactly those claimed values runs only in the opposite
mode (`limit_utci_inputs = true`).  In-range values (5) pass unchanged in both
modes. -/
theorem utci_clamp_values_not_applied :
    (compute_comfort_models_utci_call [30, 30, 30] [50, 50, 50] [20, 1/10, 5] false).v
      = [20, 1/10, 5] ∧
    saturate 20 UTCI_WIND_LOWER_BOUND UTCI_WIND_UPPER_BOUND = UTCI_WIND_UPPER_BOUND ∧
    saturate (1/10) UTCI_WIND_LOWER_BOUND UTCI_WIND_UPPER_BOUND = UTCI_WIND_LOWER_BOUND ∧
    (compute_comfort_models_utci_call [30, 30, 30] [50, 50, 50] [20, 1/10, 5] true).v
      = [UTCI_WIND_UPPER_BOUND, UTCI_WIND_LOWER_BOUND, 5] := by
  have hub : saturate 20 UTCI_WIND_LOWER_BOUND UTCI_WIND_UPPER_BOUND
      = UTCI_WIND_UPPER_BOUND := by
    norm_num [saturate, UTCI_WIND_LOWER_BOUND, UTCI_WIND_UPPER_BOUND,
      max_eq_left, min_eq_right]
  have hlb : saturate (1/10) UTCI_WIND_LOWER_BOUND UTCI_WIND_UPPER_BOUND
      = UTCI_WIND_LOWER_BOUND := by
    norm_num [saturate, UTCI_WIND_LOWER_BOUND, UTCI_WIND_UPPER_BOUND,
      max_eq_right, min_eq_left]
  have hmid : saturate 5 UTCI_WIND_LOWER_BOUND UTCI_WIND_UPPER_BOUND = 5 := by
    norm_num [saturate, UTCI_WIND_LOWER_BOUND, UTCI_WIND_UPPER_BOUND,
      max_eq_left, min_eq_left]
  refine ⟨rfl, hub, hlb, ?_⟩
  show [saturate 20 _ _, saturate (1/10) _ _, saturate 5 _ _] = _
  rw [hub, hlb, hmid]

/-- C7: discovery returns exactly the immediate children whose extension is
`.epw` case-insensitively, and raises the empty-input error exactly when no
child matches; on `{a.epw, b.EPW, c.txt}` it yields `{a.epw, b.EPW}`. -/
theorem list_epw_files_spec :
    (∀ (directory res : List String), list_epw_files directory = .ok res →
        ∀ f, f ∈ res ↔ f ∈ directory ∧ isEpwFile f = true) ∧
    (∀ directory : List String,
        list_epw_files directory = .error .emptyInput ↔
          directory.filter isEpwFile = []) ∧
    list_epw_files ["a.epw", "b.EPW", "c.txt"] = .ok ["a.epw", "b.EPW"] ∧
    list_epw_files ["c.txt", "d"] = .error .emptyInput := by
  refine ⟨?_, ?_, rfl, rfl⟩
  · intro d res h f
    rw [list_epw_files] at h
    by_cases he : (d.filter isEpwFile).isEmpty
    · simp [he] at h
    · simp only [he, if_neg, Bool.false_eq_true, if_false, Except.ok.injEq] at h
      rw [← h]
      exact List.mem_filter
  · intro d
    rw [list_epw_files]
    by_cases he : (d.filter isEpwFile).isEmpty
    · simp [he, List.isEmpty_iff.mp he]
    · simp only [he, Bool.false_eq_true, if_false]
      constructor
      · intro h
        exact absurd h (by simp)
      · intro h
        exact absurd (List.isEmpty_iff.mpr h) he

/-- Witness for C7: membership extracted from the concrete discovery run. -/
theorem list_epw_files_spec_witness :
    "b.EPW" ∈ ["a.epw", "b.EPW", "c.txt"] ∧ isEpwFile "b.EPW" = true :=
  (list_epw_files_spec.1 ["a.epw", "b.EPW", "c.txt"] ["a.epw", "b.EPW"] rfl
    "b.EPW").mp (by decide)

/-! ### Schema preservation through the loop (for C8) -/

theorem buildStep_schema (st : LoopState) (f : FileInput) :
    (buildStep st f).schema = st.schema := by
  unfold buildStep recordSuccess recordFailure
  by_cases hb : f.buildOk <;> simp [hb]

theorem csvStep_schema (cfg : RunConfig) (st st2 : LoopState)
    (h : csvStep cfg st = .ok st2) : st2.schema = st.schema := by
  unfold csvStep at h
  by_cases hc : cfg.export_csv && !st.exportedCsv
  · rw [if_pos hc] at h
    match hl : st.lastBuilt with
    | none => rw [hl] at h; exact absurd h (by simp)
    | some b =>
      rw [hl] at h
      simp only [Except.ok.injEq] at h
      rw [← h]
  · rw [if_neg hc] at h
    simp only [Except.ok.injEq] at h
    rw [← h]

theorem processFile_schema (cfg : RunConfig) (st : LoopState) (f : FileInput)
    (st2 : LoopState) (h : processFile cfg st f = .ok st2) :
    st2.schema = st.schema := by
  unfold processFile at h
  by_cases hd : f.decodeOk
  · rw [if_pos hd] at h
    match hp : parse_filename f.name with
    | .error e => rw [hp] at h; exact absurd h (by simp)
    | .ok r =>
      rw [hp] at h
      by_cases hg : !cfg.strict && !f.comfortOk
      · rw [if_pos hg] at h; exact absurd h (by simp)
      · rw [if_neg hg] at h
        rw [csvStep_schema cfg (buildStep st f) st2 h, buildStep_schema]
  · rw [if_neg hd] at h
    exact absurd h (by simp)

theorem runLoop_schema (cfg : RunConfig) :
    ∀ (files : List FileInput) (st st2 : LoopState),
      runLoop cfg st files = .ok st2 → st2.schema = st.schema := by
  intro files
  induction files with
  | nil =>
    intro st st2 h
    simp only [runLoop, Except.ok.injEq] at h
    rw [← h]
  | cons f rest ih =>
    intro st st2 h
    rw [runLoop] at h
    match hp : processFile cfg st f with
    | .error e => rw [hp] at h; exact absurd h (by simp)
    | .ok st1 =>
      rw [hp] at h
      rw [ih st1 st2 h, processFile_schema cfg st f st1 hp]

theorem finishRun_schema (st : LoopState) (out : RunOutcome)
    (h : finishRun st = .ok out) : out.schema = st.schema := by
  unfold finishRun at h
  by_cases h0 : totalRows st.table = 0
  · rw [if_pos h0] at h
    simp only [Except.ok.injEq] at h
    rw [← h]
  · rw [if_neg h0] at h
    by_cases h1 : st.durationCount = 0
    · rw [if_pos h1] at h; exact absurd h (by simp)
    · rw [if_neg h1] at h
      simp only [Except.ok.injEq] at h
      rw [← h]

/-- C8: the schema of the output table is the one fixed at construction time,
a function of the strict flag only; in strict mode it has exactly the 19
strict-mode columns with the specified order and types, and in non-strict mode
exactly 24 columns — the same 19 followed by the 5 enrichment columns. -/
theorem schema_conformance :
    (∀ (cfg : RunConfig) (files : List FileInput) (out : RunOutcome),
        runMain cfg files = .ok out → out.schema = output_schema cfg.strict) ∧
    (output_schema true).length = 19 ∧
    output_schema false = output_schema true ++ enrichment_schema ∧
    (output_schema false).length = 24 ∧
    (output_schema true).map Prod.snd =
      [.string, .string, .float64, .float64, .float64, .string, .int32,
       .datetime, .float64, .float64, .int64, .int64, .int64, .int64, .int64,
       .int64, .float64, .int64, .int64] ∧
    enrichment_schema.map Prod.snd = [.float64, .string, .float64, .float64, .string] := by
  refine ⟨?_, rfl, rfl, rfl, rfl, rfl⟩
  intro cfg files out h
  rw [runMain] at h
  match hl : runLoop cfg (initState cfg) (sortFiles files) with
  | .error e => rw [hl] at h; exact absurd h (by simp)
  | .ok st =>
    rw [hl] at h
    rw [finishRun_schema st out h, runLoop_schema cfg (sortFiles files) _ st hl]
    rfl

/-- Witness for C8: the schema of a concrete completed strict-mode run. -/
theorem schema_conformance_witness :
    (RunOutcome.mk (output_schema true) [⟨"x_2020.epw", 3⟩]
        (some [⟨"x_2020.epw", 3⟩]) none 1 0 [] false).schema
      = output_schema true :=
  schema_conformance.1 ⟨true, false, false⟩ [⟨"x_2020.epw", true, 3, true, true⟩]
    _ rfl

/-! ### Decimal parsing lemmas (for C5 and C10) -/

theorem isDigit_not_space (c : Char) (h : c.isDigit = true) : pyIsSpace c = false := by
  cases hsp : pyIsSpace c with
  | false => rfl
  | true =>
    simp only [pyIsSpace, Bool.or_eq_true, decide_eq_true_eq] at hsp
    rcases hsp with ((((hc | hc) | hc) | hc) | hc) | hc <;>
      (rw [hc] at h; exact absurd h (by decide))

theorem pyStrip_of_digits (l : List Char) (h : ∀ c ∈ l, c.isDigit = true) :
    pyStrip l = l := by
  have h1 : l.dropWhile pyIsSpace = l := by
    cases l with
    | nil => rfl
    | cons c t =>
      rw [List.dropWhile_cons, isDigit_not_space c (h c (by simp))]
      simp
  rw [pyStrip, h1]
  have h2 : l.reverse.dropWhile pyIsSpace = l.reverse := by
    cases hr : l.reverse with
    | nil => rfl
    | cons c t =>
      have hc : c ∈ l := by
        rw [← List.mem_reverse, hr]
        simp
      rw [List.dropWhile_cons, isDigit_not_space c (h c hc)]
      simp
  rw [h2, List.reverse_reverse]

theorem parseDigitsTail_all_digits (l : List Char) :
    ∀ acc : Nat, (∀ c ∈ l, c.isDigit = true) →
      parseDigitsTail acc l
        = some (l.foldl (fun a c => a * 10 + digitVal c) acc) := by
  induction l with
  | nil => intro acc _; rfl
  | cons c rest ih =>
    intro acc h
    have hc : c.isDigit = true := h c (by simp)
    rw [parseDigitsTail.eq_def]
    dsimp only
    rw [if_pos hc, List.foldl_cons]
    exact ih _ (fun d hd => h d (by simp [hd]))

theorem foldl_digits_eq (l : List Char) :
    ∀ acc : Nat,
      l.foldl (fun a c => a * 10 + digitVal c) acc
        = acc * 10 ^ l.length + Nat.ofDigits 10 ((l.map digitVal).reverse) := by
  induction l with
  | nil => intro acc; simp [Nat.ofDigits]
  | cons c rest ih =>
    intro acc
    rw [List.foldl_cons, ih]
    simp only [List.map_cons, List.reverse_cons, Nat.ofDigits_append,
      Nat.ofDigits_singleton, List.length_cons, List.length_reverse,
      List.length_map, pow_succ]
    ring

/-- On a nonempty all-digit string, CPython `int` returns the decimal value of
the digit sequence. -/
theorem pyIntOfChars_digits (l : List Char) (hne : l ≠ [])
    (h : ∀ c ∈ l, c.isDigit = true) :
    pyIntOfChars l
      = some (Int.ofNat (Nat.ofDigits 10 ((l.map digitVal).reverse))) := by
  rw [pyIntOfChars, pyStrip_of_digits l h]
  match l, hne with
  | c :: t, _ =>
    have hc : c.isDigit = true := h c (by simp)
    have hplus : ¬c = '+' := by
      intro he; rw [he] at hc; exact absurd hc (by decide)
    have hminus : ¬c = '-' := by
      intro he; rw [he] at hc; exact absurd hc (by decide)
    dsimp only
    rw [if_neg hplus, if_neg hminus, parseDigitPart.eq_def]
    dsimp only
    rw [if_pos hc,
      parseDigitsTail_all_digits t (digitVal c) (fun d hd => h d (by simp [hd]))]
    have hfold : t.foldl (fun a d => a * 10 + digitVal d) (digitVal c)
        = (c :: t).foldl (fun a d => a * 10 + digitVal d) 0 := by
      rw [List.foldl_cons]
      norm_num
    rw [Option.map_some', hfold, foldl_digits_eq]
    simp

theorem penult_isSome {α : Type} (l : List α) (h : 2 ≤ l.length) :
    ∃ x, penult l = some x := by
  rw [penult, ← Option.isSome_iff_exists, List.getLast?_isSome, ← List.length_pos]
  rw [List.length_dropLast]
  omega

theorem penult_none {α : Type} (l : List α) (h : l.length < 2) :
    penult l = none := by
  rw [penult]
  have : l.dropLast = [] := by
    rw [← List.length_eq_zero, List.length_dropLast]
    omega
  rw [this]
  rfl

/-- C5 counterexample: the stem of `city_+123.epw` ends in `+123`, whose
characters are not all digits, yet `parse_filename` succeeds with year 123
(CPython `int` accepts a sign) instead of failing with a numeric-parse
error. -/
theorem parse_filename_accepts_signed_year :
    parse_filename "city_+123.epw" = .ok ⟨"Baseline", 123⟩ ∧
    last4 (pathStemChars ("city_+123.epw").data) = ['+', '1', '2', '3'] ∧
    ('+').isDigit = false :=
  ⟨rfl, rfl, rfl⟩

/-- C5 (amended): for an extension-stripped name, the year is the value of the
trailing four characters parsed by CPython `int` semantics — four trailing
digit characters always yield their decimal value — and the scenario is the
upper-cased token preceding the year token when `ssp` occurs (when at least
two underscore-delimited tokens exist; the spec leaves fewer tokens
implementation-defined), else `"Baseline"`.  A numeric-parse error is raised
exactly when the trailing four characters do not parse as a Python integer
(not merely when they are not all digits): the two concrete examples of the
spec evaluate as claimed. -/
theorem parse_filename_contract :
    parse_filename "city_2021.epw" = .ok ⟨"Baseline", 2021⟩ ∧
    parse_filename "city_ssp126_2050.epw" = .ok ⟨"SSP126", 2050⟩ ∧
    (∀ l : List Char, 4 ≤ l.length → (∀ c ∈ last4 l, c.isDigit = true) →
        (sspIn l = true → 2 ≤ (pySplit '_' l).length) →
        parseStemChars l
          = .ok ⟨if sspIn l then
                   String.mk (((penult (pySplit '_' l)).getD []).map Char.toUpper)
                 else "Baseline",
                 Int.ofNat (Nat.ofDigits 10 (((last4 l).map digitVal).reverse))⟩) ∧
    (∀ l : List Char, pyIntOfChars (last4 l) = none →
        parseStemChars l = .error .valueError) := by
  refine ⟨rfl, rfl, ?_, ?_⟩
  · intro l h4 hd htok
    have hne : last4 l ≠ [] := by
      rw [← List.length_pos, last4, List.length_drop]
      omega
    rw [parseStemChars, pyIntOfChars_digits (last4 l) hne hd]
    by_cases hssp : sspIn l
    · obtain ⟨tok, htk⟩ := penult_isSome _ (htok hssp)
      rw [htk]
      simp [hssp, htk]
    · simp [hssp]
  · intro l h
    rw [parseStemChars, h]

/-- Witness for C5 at a plain stem and at a non-numeric stem. -/
theorem parse_filename_contract_witness :
    parseStemChars ("abc_1984").data = .ok ⟨"Baseline", 1984⟩ ∧
    parseStemChars ("xyz").data = .error .valueError := by
  constructor
  · exact (parse_filename_contract.2.2.1 ("abc_1984").data (by decide) (by decide)
      (by decide)).trans (by rfl)
  · exact parse_filename_contract.2.2.2 ("xyz").data (by rfl)

/-- C10 counterexample: `sspx.epw` contains `ssp` and its stem splits into a
single token, but the extractor fails with the numeric-parse error (the year
conversion at line 98 runs first), not an index-out-of-range error. -/
theorem parse_filename_ssp_short_value_error :
    parse_filename "sspx.epw" = .error .valueError ∧
    sspIn (pathStemChars ("sspx.epw").data) = true ∧
    (pySplit '_' (pathStemChars ("sspx.epw").data)).length = 1 ∧
    PyErr.valueError ≠ PyErr.indexError :=
  ⟨rfl, rfl, rfl, by decide⟩

/-- C10 (amended): when the extension-stripped name contains `ssp`
case-insensitively, splits on underscore into fewer than two tokens, and its
trailing four characters do parse as a year, `parse_filename` raises an
uncaught index-out-of-range error (`split("_")[-2]` on a short list); when
the year parse also fails, the numeric-parse error is raised first instead. -/
theorem parse_filename_ssp_short_crashes (name : String)
    (hssp : sspIn (pathStemChars name.data) = true)
    (hlen : (pySplit '_' (pathStemChars name.data)).length < 2)
    (hy : (pyIntOfChars (last4 (pathStemChars name.data))).isSome = true) :
    parse_filename name = .error .indexError := by
  rw [parse_filename]
  obtain ⟨y, hy2⟩ := Option.isSome_iff_exists.mp hy
  rw [parseStemChars, hy2]
  dsimp only
  rw [if_pos hssp, penult_none _ hlen]

/-- Witness for C10 at `ssp2050.epw`. -/
theorem parse_filename_ssp_short_crashes_witness :
    parse_filename "ssp2050.epw" = .error .indexError :=
  parse_filename_ssp_short_crashes "ssp2050.epw" (by decide) (by decide) (by decide)

/-! ### Loop lemmas (for C2, C3, C4) -/

theorem exceptIsOk_exists {ε α : Type} (e : Except ε α) (h : exceptIsOk e = true) :
    ∃ a, e = .ok a := by
  match e with
  | .ok a => exact ⟨a, rfl⟩
  | .error _ => exact absurd h (by exact Bool.false_ne_true)

/-- Under a successful decode, filename parse and comfort computation, one
iteration is the guarded batch construction followed by the CSV block. -/
theorem processFile_ok (cfg : RunConfig) (st : LoopState) (f : FileInput)
    (hdec : f.decodeOk = true) (hpar : exceptIsOk (parse_filename f.name) = true)
    (hcom : cfg.strict = true ∨ f.comfortOk = true) :
    processFile cfg st f = csvStep cfg (buildStep st f) := by
  obtain ⟨r, hr⟩ := exceptIsOk_exists _ hpar
  rw [processFile, if_pos hdec, hr]
  dsimp only
  have hguard : ¬((!cfg.strict && !f.comfortOk) = true) := by
    rcases hcom with h1 | h1 <;> simp [h1]
  rw [if_neg hguard]

/-- The CSV block is inert when export is off or the sample was written. -/
theorem csvStep_skip (cfg : RunConfig) (st : LoopState)
    (h : cfg.export_csv = false ∨ st.exportedCsv = true) :
    csvStep cfg st = .ok st := by
  rw [csvStep, if_neg]
  rcases h with h1 | h1 <;> simp [h1]

/-- C2 counterexample: a run whose first sorted file has a filename whose year
does not parse (`bad.epw`).  The claim says such a failure is recovered and
processing continues with the next file; instead the uncaught `ValueError`
aborts the whole run and the second file is never processed. -/
theorem filename_failure_aborts_run :
    runMain ⟨true, false, false⟩
      [⟨"bad.epw", true, 6, true, true⟩, ⟨"good_2021.epw", true, 6, true, true⟩]
      = .error (.filenameError .valueError) := rfl

/-- C2 (amended): only failures of the batch-construction step are recovered
locally — the failure count is incremented, the file's identity is logged, no
duration and no rows are recorded, and the loop continues with the next file
(provided the sample-export write is not pending) — whereas a failure of the
filename-year parse is uncaught and aborts the run with a `ValueError` (decoder
and comfort-model failures abort likewise, by `processFile`). -/
theorem per_file_failure_recovery :
    (∀ (cfg : RunConfig) (st : LoopState) (f : FileInput) (rest : List FileInput),
        f.decodeOk = true → exceptIsOk (parse_filename f.name) = true →
        (cfg.strict = true ∨ f.comfortOk = true) → f.buildOk = false →
        (cfg.export_csv = false ∨ st.exportedCsv = true) →
        runLoop cfg st (f :: rest) = runLoop cfg (recordFailure st f.name) rest) ∧
    (∀ (cfg : RunConfig) (st : LoopState) (f : FileInput) (rest : List FileInput),
        f.decodeOk = true →
        pyIntOfChars (last4 (pathStemChars f.name.data)) = none →
        runLoop cfg st (f :: rest) = .error (.filenameError .valueError)) := by
  constructor
  · intro cfg st f rest hdec hpar hcom hbuild hskip
    have hb : buildStep st f = recordFailure st f.name := by
      rw [buildStep, if_neg (by simp [hbuild])]
    rw [runLoop, processFile_ok cfg st f hdec hpar hcom, hb,
      csvStep_skip cfg (recordFailure st f.name) hskip]
  · intro cfg st f rest hdec hy
    have hp : parse_filename f.name = .error .valueError := by
      rw [parse_filename, parseStemChars, hy]
    rw [runLoop, processFile, if_pos hdec, hp]

/-- Witness for C2: a concrete recovered batch failure and a concrete aborting
filename failure. -/
theorem per_file_failure_recovery_witness :
    runLoop ⟨true, false, false⟩ (initState ⟨true, false, false⟩)
        [⟨"w_2020.epw", true, 6, true, false⟩, ⟨"z_2021.epw", true, 6, true, true⟩]
      = runLoop ⟨true, false, false⟩
          (recordFailure (initState ⟨true, false, false⟩) "w_2020.epw")
          [⟨"z_2021.epw", true, 6, true, true⟩] ∧
    runLoop ⟨true, false, false⟩ (initState ⟨true, false, false⟩)
        [⟨"nodigits.epw", true, 6, true, true⟩]
      = .error (.filenameError .valueError) :=
  ⟨per_file_failure_recovery.1 ⟨true, false, false⟩ _ ⟨"w_2020.epw", true, 6, true, false⟩
      [⟨"z_2021.epw", true, 6, true, true⟩] rfl (by decide) (Or.inl rfl) rfl (Or.inl rfl),
   per_file_failure_recovery.2 ⟨true, false, false⟩ _ ⟨"nodigits.epw", true, 6, true, true⟩
      [] rfl (by decide)⟩

/-- With export off and all external calls before batch construction
succeeding, the loop completes and accumulates exactly the successful batches,
one duration per success, and one counted and logged failure per failed
build. -/
theorem runLoop_ok (cfg : RunConfig) (hcsv : cfg.export_csv = false) :
    ∀ (files : List FileInput) (st : LoopState),
      (∀ f ∈ files, f.decodeOk = true ∧ exceptIsOk (parse_filename f.name) = true ∧
          (cfg.strict = true ∨ f.comfortOk = true)) →
      ∃ st2, runLoop cfg st files = .ok st2 ∧
        st2.table = st.table ++ succBatches files ∧
        st2.durationCount = st.durationCount + (files.filter fun f => f.buildOk).length ∧
        st2.failureCount = st.failureCount + failCount files ∧
        st2.failureLog = st.failureLog ++ failNames files := by
  intro files
  induction files with
  | nil =>
    intro st _
    exact ⟨st, rfl, by simp [succBatches], by simp, by simp [failCount],
      by simp [failNames]⟩
  | cons f rest ih =>
    intro st h
    obtain ⟨hdec, hpar, hcom⟩ := h f (by simp)
    obtain ⟨st2, hrun, ht, hd, hf, hl⟩ :=
      ih (buildStep st f) (fun g hg => h g (by simp [hg]))
    refine ⟨st2, ?_, ?_, ?_, ?_, ?_⟩
    · rw [runLoop, processFile_ok cfg st f hdec hpar hcom,
        csvStep_skip cfg (buildStep st f) (Or.inl hcsv)]
      exact hrun
    · cases hb : f.buildOk <;>
        simp [ht, buildStep, hb, recordSuccess, recordFailure, succBatches,
          List.filter_cons]
    · cases hb : f.buildOk <;>
        (simp [hd, buildStep, hb, recordSuccess, recordFailure,
          List.filter_cons]; all_goals omega)
    · cases hb : f.buildOk <;>
        (simp [hf, buildStep, hb, recordSuccess, recordFailure, failCount,
          List.filter_cons]; all_goals omega)
    · cases hb : f.buildOk <;>
        simp [hl, buildStep, hb, recordSuccess, recordFailure, failNames,
          List.filter_cons]

theorem mem_insertSorted (f g : FileInput) (l : List FileInput) :
    g ∈ insertSorted f l ↔ g = f ∨ g ∈ l := by
  induction l with
  | nil => simp [insertSorted]
  | cons x rest ih =>
    rw [insertSorted]
    by_cases hle : strLe f.name x.name
    · simp [hle]
    · simp only [hle, Bool.false_eq_true, if_false, List.mem_cons, ih]
      tauto

theorem mem_sortFiles (f : FileInput) (l : List FileInput) :
    f ∈ sortFiles l ↔ f ∈ l := by
  induction l with
  | nil => simp [sortFiles]
  | cons x rest ih =>
    rw [sortFiles, mem_insertSorted]
    simp [ih]

theorem length_insertSorted (f : FileInput) (l : List FileInput) :
    (insertSorted f l).length = l.length + 1 := by
  induction l with
  | nil => rfl
  | cons x rest ih =>
    rw [insertSorted]
    by_cases hle : strLe f.name x.name <;> simp [hle, ih]

theorem length_sortFiles (l : List FileInput) :
    (sortFiles l).length = l.length := by
  induction l with
  | nil => rfl
  | cons x rest ih =>
    rw [sortFiles, length_insertSorted, ih]
    rfl

theorem succ_fail_length (files : List FileInput) :
    (files.filter fun f => f.buildOk).length + failCount files = files.length := by
  induction files with
  | nil => rfl
  | cons f rest ih =>
    cases hb : f.buildOk <;>
      (simp [failCount, List.filter_cons, hb] at ih ⊢; omega)

theorem totalRows_succ_ne_zero (files : List FileInput)
    (hlen : ∀ f ∈ files, 0 < f.seriesLen) (hne : succBatches files ≠ []) :
    totalRows (succBatches files) ≠ 0 := by
  intro h0
  rw [totalRows, List.sum_eq_zero_iff] at h0
  obtain ⟨b, hb⟩ := List.exists_mem_of_ne_nil _ hne
  obtain ⟨f, hf, hfb⟩ := List.mem_map.mp hb
  have h1 : 0 < f.seriesLen := hlen f (List.mem_of_mem_filter hf)
  have h2 : b.rows = 0 := h0 b.rows (List.mem_map_of_mem Batch.rows hb)
  rw [← hfb] at h2
  simp only [mkBatch] at h2
  omega

/-- C3 counterexample: `N = 2` files, exactly `k = 1` failing batch
construction, so `N − k = 1 > 0` — but with sample export requested the run
aborts on the unbound batch variable instead of completing and persisting the
artifact. -/
theorem csv_pending_crash_breaks_isolation :
    runMain ⟨false, true, true⟩
      [⟨"m_2020.epw", true, 8760, true, false⟩, ⟨"n_2021.epw", true, 8760, true, true⟩]
      = .error .csvNameError := rfl

/-- C3 (amended): over `N` discovered files in which exactly `k` fail batch
construction (decode, filename parse and comfort computation succeeding
everywhere, series non-empty as for real 8760-row weather files) and with
sample export not requested: the run completes, the output table is exactly
the `N − k` per-file batches in sorted-file order (each row count the file's
series length, by `mkBatch`), the metrics hold `N − k` durations and `k`
failures, the artifact is persisted when `N − k > 0`, and when all `N` fail
no artifact is produced and the run ends normally with the empty warning. -/
theorem orchestrator_failure_isolation (cfg : RunConfig) (files : List FileInput)
    (hcsv : cfg.export_csv = false)
    (hok : ∀ f ∈ files, f.decodeOk = true ∧ exceptIsOk (parse_filename f.name) = true ∧
        (cfg.strict = true ∨ f.comfortOk = true))
    (hlen : ∀ f ∈ files, 0 < f.seriesLen) :
    (runMain cfg files).map (fun out =>
        (out.tableBatches, out.durations, out.failures, out.artifact, out.warnedEmpty))
      = .ok (succBatches (sortFiles files),
             files.length - failCount (sortFiles files),
             failCount (sortFiles files),
             if failCount (sortFiles files) = files.length then none
               else some (succBatches (sortFiles files)),
             if failCount (sortFiles files) = files.length then true else false) ∧
    (succBatches (sortFiles files)).length
      = files.length - failCount (sortFiles files) := by
  have hok2 : ∀ f ∈ sortFiles files,
      f.decodeOk = true ∧ exceptIsOk (parse_filename f.name) = true ∧
        (cfg.strict = true ∨ f.comfortOk = true) :=
    fun f hf => hok f ((mem_sortFiles f files).mp hf)
  have hlen2 : ∀ f ∈ sortFiles files, 0 < f.seriesLen :=
    fun f hf => hlen f ((mem_sortFiles f files).mp hf)
  obtain ⟨st2, hrun, ht, hd, hf, _⟩ :=
    runLoop_ok cfg hcsv (sortFiles files) (initState cfg) hok2
  simp only [initState, List.nil_append, Nat.zero_add] at ht hd hf
  have hsplit := succ_fail_length (sortFiles files)
  have hN := length_sortFiles files
  have hlength : (succBatches (sortFiles files)).length
      = files.length - failCount (sortFiles files) := by
    rw [succBatches, List.length_map]
    omega
  refine ⟨?_, hlength⟩
  rw [runMain, hrun]
  dsimp only
  rw [finishRun]
  by_cases hzero : failCount (sortFiles files) = files.length
  · have hnil : succBatches (sortFiles files) = [] := by
      rw [← List.length_eq_zero, hlength, hzero]
      omega
    have h0 : totalRows st2.table = 0 := by
      rw [ht, hnil]
      rfl
    rw [if_pos h0, if_pos hzero, if_pos hzero]
    simp only [Except.map]
    rw [ht, hd, hf, hnil]
    have hcB : ((sortFiles files).filter fun f => f.buildOk).length = 0 := by
      rw [← List.length_map _ mkBatch]
      rw [succBatches] at hnil
      rw [hnil]
      rfl
    rw [hcB]
    have : files.length - failCount (sortFiles files) = 0 := by omega
    rw [this]
  · have hne : succBatches (sortFiles files) ≠ [] := by
      intro hnil
      rw [hnil] at hlength
      simp only [List.length_nil] at hlength
      omega
    have h0 : ¬(totalRows st2.table = 0) := by
      rw [ht]
      exact totalRows_succ_ne_zero (sortFiles files) hlen2 hne
    have hdur : ¬(st2.durationCount = 0) := by
      rw [hd, ← List.length_map _ mkBatch, ← succBatches]
      intro hc
      exact hne (List.length_eq_zero.mp hc)
    rw [if_neg h0, if_neg hdur, if_neg hzero, if_neg hzero]
    simp only [Except.map]
    rw [ht, hd, hf]
    have : ((sortFiles files).filter fun f => f.buildOk).length
        = files.length - failCount (sortFiles files) := by omega
    rw [this]

/-- Witness for C3: a two-file run, unsorted on input, one batch failure. -/
theorem orchestrator_failure_isolation_witness :
    (runMain ⟨true, false, false⟩
        [⟨"b_2021.epw", true, 4, true, false⟩, ⟨"a_2020.epw", true, 3, true, true⟩]).map
        (fun out =>
          (out.tableBatches, out.durations, out.failures, out.artifact, out.warnedEmpty))
      = .ok (succBatches (sortFiles
               [⟨"b_2021.epw", true, 4, true, false⟩, ⟨"a_2020.epw", true, 3, true, true⟩]),
             2 - failCount (sortFiles
               [⟨"b_2021.epw", true, 4, true, false⟩, ⟨"a_2020.epw", true, 3, true, true⟩]),
             failCount (sortFiles
               [⟨"b_2021.epw", true, 4, true, false⟩, ⟨"a_2020.epw", true, 3, true, true⟩]),
             if failCount (sortFiles
                  [⟨"b_2021.epw", true, 4, true, false⟩, ⟨"a_2020.epw", true, 3, true, true⟩])
                = 2 then none
               else some (succBatches (sortFiles
                 [⟨"b_2021.epw", true, 4, true, false⟩, ⟨"a_2020.epw", true, 3, true, true⟩])),
             if failCount (sortFiles
                  [⟨"b_2021.epw", true, 4, true, false⟩, ⟨"a_2020.epw", true, 3, true, true⟩])
                = 2 then true else false) :=
  (orchestrator_failure_isolation ⟨true, false, false⟩
    [⟨"b_2021.epw", true, 4, true, false⟩, ⟨"a_2020.epw", true, 3, true, true⟩]
    rfl (by decide) (by decide)).1

/-- C4 (code-bug evaluation): sample export requested, the first sorted file
fails batch construction and a later file would succeed.  The code reaches
`current_data.write_csv` with `current_data` never assigned and aborts with a
`NameError`; no CSV containing the first successfully built batch is ever
written and the run does not continue. -/
theorem csv_export_unbound_batch_crash :
    runMain ⟨true, true, false⟩
      [⟨"a_2020.epw", true, 7, true, false⟩, ⟨"b_2021.epw", true, 7, true, true⟩]
      = .error .csvNameError := rfl
